import Mathlib

/-!
Verification development for the Handelsbanken API playground script
(`index.py`).  The script drives an OAuth2 flow against a banking
sandbox, fetches accounts and transactions, and flattens each
transaction into a CSV row.

The embedding below models:
  * JSON-like values (`JValue`) as returned by `response.json()`;
  * Python dictionary subscription, which raises `KeyError` on a
    missing key and `TypeError` when subscripting a non-dict;
  * the flattening helpers `process_amount_key` and
    `prepare_transaction`;
  * the `Handelsbanken` session object, its four OAuth steps and the
    `__main__` driver loop, parameterised by an oracle
    (`ApiResponses`) supplying the remote responses of one run, with
    an event trace recording the order of the HTTP requests made.
-/

/-- JSON-like values flowing through the script: strings, integers,
null, arrays and objects.  Objects are association lists, as Python
dicts with string keys. -/
inductive JValue where
  | str (s : String)
  | num (n : Int)
  | null
  | arr (items : List JValue)
  | obj (fields : List (String × JValue))

/-- A Python dict with string keys, as produced by `response.json()`. -/
abbrev Dict := List (String × JValue)

/-- The Python exceptions the script can raise while processing data. -/
inductive PyError where
  | keyError (key : String)
  | typeError
  | attributeError
  | indexError
deriving DecidableEq

/-- Python dict subscription `d[key]`: the value when the key is
present, otherwise a `KeyError`. -/
def dget (d : Dict) (key : String) : Except PyError JValue :=
  match d.lookup key with
  | some v => .ok v
  | none => .error (.keyError key)

/-- Python subscription `v[key]` on an arbitrary JSON value: dicts are
looked up, every other value raises a `TypeError` (as Python does for
string, int, None and list subscripts with a string key). -/
def jget (v : JValue) (key : String) : Except PyError JValue :=
  match v with
  | .obj fields => dget fields key
  | _ => .error .typeError

/-- Python integer subscription `v[i]` as used for
`_links.authorization[0]`: lists index (raising `IndexError` when out
of range), dicts raise `KeyError` (modelled on the integer key, here
recorded as its decimal spelling), everything else a `TypeError`. -/
def jindex (v : JValue) (i : Nat) : Except PyError JValue :=
  match v with
  | .arr items =>
    match items.get? i with
    | some x => .ok x
    | none => .error .indexError
  | .obj _ => .error (.keyError (toString i))
  | _ => .error .typeError

mutual

/-- Python `repr` of a JSON value, used when a non-string value is
interpolated inside a container.  String escaping beyond quoting
is not modelled. -/
def pyRepr : JValue → String
  | .str s => "\x27" ++ s ++ "\x27"
  | .num n => toString n
  | .null => "None"
  | .arr items => "[" ++ pyReprList items ++ "]"
  | .obj fields => "\x7b" ++ pyReprFields fields ++ "\x7d"

/-- Comma-separated `repr` of list elements. -/
def pyReprList : List JValue → String
  | [] => ""
  | [v] => pyRepr v
  | v :: rest => pyRepr v ++ ", " ++ pyReprList rest

/-- Comma-separated `repr` of dict entries. -/
def pyReprFields : List (String × JValue) → String
  | [] => ""
  | [(k, v)] => "\x27" ++ k ++ "\x27: " ++ pyRepr v
  | (k, v) :: rest => "\x27" ++ k ++ "\x27: " ++ pyRepr v ++ ", " ++ pyReprFields rest

end

/-- Python `str` of a JSON value, as produced by an f-string
interpolation: strings are used verbatim, every other value prints as
its `repr` (ints and None print the same either way). -/
def pyStr : JValue → String
  | .str s => s
  | v => pyRepr v

/-- `process_amount_key` from `index.py`: formats an amount dict as
`f"{amount['currency']} {amount['content']}"`.  Subscription of a
missing key raises `KeyError`. -/
def process_amount_key (amount : JValue) : Except PyError String :=
  match jget amount "currency" with
  | .error e => .error e
  | .ok currency =>
    match jget amount "content" with
    | .error e => .error e
    | .ok content => .ok (pyStr currency ++ " " ++ pyStr content)

/-- The fixed `transaction_keys` list of `prepare_transaction`. -/
def transaction_keys : List String :=
  ["status", "amount", "ledgerDate", "transactionDate", "creditDebit",
   "remittanceInformation", "balance"]

/-- One iteration of the `for key in transaction_keys` loop of
`prepare_transaction`: when the key is among the received keys the
value is extracted (amounts and balances being formatted), otherwise
the empty string is appended. -/
def processTransactionKey (transaction : Dict) (key : String) :
    Except PyError JValue :=
  if key ∈ transaction.map Prod.fst then
    if key = "amount" then
      match dget transaction "amount" with
      | .error e => .error e
      | .ok a =>
        match process_amount_key a with
        | .error e => .error e
        | .ok s => .ok (.str s)
    else if key = "balance" then
      match dget transaction "balance" with
      | .error e => .error e
      | .ok tb =>
        match jget tb "balanceType" with
        | .error e => .error e
        | .ok bt =>
          match jget tb "amount" with
          | .error e => .error e
          | .ok am =>
            match process_amount_key am with
            | .error e => .error e
            | .ok s => .ok (.str (pyStr bt ++ ": " ++ s))
    else
      dget transaction key
  else
    .ok (.str "")

/-- The loop of `prepare_transaction`, accumulating one cell per key. -/
def prepareLoop (transaction : Dict) : List String → Except PyError (List JValue)
  | [] => .ok []
  | key :: rest =>
    match processTransactionKey transaction key with
    | .error e => .error e
    | .ok v =>
      match prepareLoop transaction rest with
      | .error e => .error e
      | .ok vs => .ok (v :: vs)

/-- `prepare_transaction` from `index.py`: flattens a transaction dict
into the list of seven CSV cells, in the fixed key order. -/
def prepare_transaction (transaction : Dict) : Except PyError (List JValue) :=
  prepareLoop transaction transaction_keys

/-- The mutable fields of the `Handelsbanken` object, as set in
`__init__` and updated by the four OAuth steps. -/
structure Session where
  client_id : String
  access_token : Option JValue
  consent_id : Option JValue
  authorization_endpoint : Option JValue
  authorization_code : Option String
  auth_access_token : Option JValue
  refresh_token : Option JValue

/-- The field initialisation performed by `Handelsbanken.__init__`
before it invokes `authorize`. -/
def initFields (client_id : String) : Session :=
  { client_id := client_id
    access_token := none
    consent_id := none
    authorization_endpoint := none
    authorization_code := none
    auth_access_token := none
    refresh_token := none }

/-- The remote responses observed during one run: the JSON bodies of
the four OAuth/data endpoints, the result of the regular-expression
search for the authorization code on the SCA page (None when the page
text does not match), and the transactions body per requested account
id. -/
structure ApiResponses where
  tokenResponse : Dict
  consentResponse : Dict
  authCodeMatch : Option String
  acgResponse : Dict
  accountsResponse : Dict
  transactionsResponse : JValue → Dict

/-- `request_ccg_token`: stores `json_body['access_token']`. -/
def request_ccg_token (s : Session) (json_body : Dict) :
    Except PyError Session :=
  match dget json_body "access_token" with
  | .error e => .error e
  | .ok tok => .ok { s with access_token := some tok }

/-- The `for redirect_method in redirect_methods` loop of
`initiate_consent`: the filter predicate reads
`method['scaMethodType']` (raising on malformed entries), and each
REDIRECT method overwrites `authorization_endpoint` with
`method['_links']['authorization'][0]['href']`. -/
def consentFor (s : Session) : List JValue → Except PyError Session
  | [] => .ok s
  | method :: rest =>
    match jget method "scaMethodType" with
    | .error e => .error e
    | .ok (JValue.str t) =>
      if t = "REDIRECT" then
        match jget method "_links" with
        | .error e => .error e
        | .ok links =>
          match jget links "authorization" with
          | .error e => .error e
          | .ok auth =>
            match jindex auth 0 with
            | .error e => .error e
            | .ok first =>
              match jget first "href" with
              | .error e => .error e
              | .ok href =>
                consentFor { s with authorization_endpoint := some href } rest
      else consentFor s rest
    | .ok _ => consentFor s rest

/-- `initiate_consent`: stores `json_body['consentId']`, then scans
`json_body['scaMethods']` for REDIRECT methods.  Iteration over a
non-list `scaMethods` value is modelled as a `TypeError`. -/
def initiate_consent (s : Session) (json_body : Dict) :
    Except PyError Session :=
  match dget json_body "consentId" with
  | .error e => .error e
  | .ok consentId =>
    match dget json_body "scaMethods" with
    | .error e => .error e
    | .ok (JValue.arr methods) =>
      consentFor { s with consent_id := some consentId } methods
    | .ok _ => .error .typeError

/-- `initiate_authorization`: `pattern.search(r.text)` either yields a
match whose group 1 becomes `authorization_code`, or yields None, on
which `.group(1)` raises an `AttributeError`. -/
def initiate_authorization (s : Session) (codeMatch : Option String) :
    Except PyError Session :=
  match codeMatch with
  | some code => .ok { s with authorization_code := some code }
  | none => .error .attributeError

/-- `request_acg_token`: stores `json_body['refresh_token']` and
`json_body['access_token']`, in that order. -/
def request_acg_token (s : Session) (json_body : Dict) :
    Except PyError Session :=
  match dget json_body "refresh_token" with
  | .error e => .error e
  | .ok rt =>
    match dget json_body "access_token" with
    | .error e => .error e
    | .ok at2 =>
      .ok { s with refresh_token := some rt, auth_access_token := some at2 }

/-- The HTTP requests the script can make, in the order they are
issued.  An event is recorded when the request is sent, before its
response is processed. -/
inductive Event where
  | ccgToken
  | initConsent
  | initAuth
  | acgToken
  | getAccounts
  | getTransactions (account_id : JValue)

/-- Is the event one of the two data fetches? -/
def Event.isFetch : Event → Bool
  | .getAccounts => true
  | .getTransactions _ => true
  | _ => false

/-- The four OAuth requests in the order `authorize` issues them. -/
def authSeq : List Event :=
  [.ccgToken, .initConsent, .initAuth, .acgToken]

/-- `Handelsbanken.authorize`: runs the four OAuth steps in sequence,
threading the session, recording one event per request made, and
stopping at the first raised exception. -/
def authorize (s : Session) (api : ApiResponses) :
    List Event × Except PyError Session :=
  match request_ccg_token s api.tokenResponse with
  | .error e => ([.ccgToken], .error e)
  | .ok s1 =>
    match initiate_consent s1 api.consentResponse with
    | .error e => ([.ccgToken, .initConsent], .error e)
    | .ok s2 =>
      match initiate_authorization s2 api.authCodeMatch with
      | .error e => ([.ccgToken, .initConsent, .initAuth], .error e)
      | .ok s3 =>
        match request_acg_token s3 api.acgResponse with
        | .error e => (authSeq, .error e)
        | .ok s4 => (authSeq, .ok s4)

/-- The header row written first into `transactions.csv`. -/
def header_row : List JValue :=
  [.str "Account ID", .str "Owner Name", .str "Status", .str "Amount",
   .str "Ledger Date", .str "Transaction Date", .str "Credit/Debit",
   .str "Remittance Information", .str "Balance"]

/-- The `for trans in transactions` loop: each transaction (which must
be a dict, else `.keys()` raises an `AttributeError`) is flattened and
written as `[account['accountId'], account['ownerName']] + trans_csv`.
Returns the rows written before any exception, and the exception. -/
def transLoop (account : JValue) (aid : JValue) :
    List JValue → List (List JValue) × Option PyError
  | [] => ([], none)
  | t :: rest =>
    match t with
    | .obj tfields =>
      match prepare_transaction tfields with
      | .error e => ([], some e)
      | .ok trans_csv =>
        match jget account "ownerName" with
        | .error e => ([], some e)
        | .ok owner =>
          match transLoop account aid rest with
          | (rows, err) => ((aid :: owner :: trans_csv) :: rows, err)
    | _ => ([], some .attributeError)

/-- The `for account in bank_accounts` loop: reads the account id,
requests that account transactions (recording a `getTransactions`
event), requires `json['transactions']` to be a list, and writes its
rows.  Returns the events, the rows written before any exception, and
the exception. -/
def accountsLoop (api : ApiResponses) :
    List JValue → List Event × List (List JValue) × Option PyError
  | [] => ([], [], none)
  | account :: rest =>
    match jget account "accountId" with
    | .error e => ([], [], some e)
    | .ok aid =>
      match dget (api.transactionsResponse aid) "transactions" with
      | .error e => ([.getTransactions aid], [], some e)
      | .ok (JValue.arr transactions) =>
        match transLoop account aid transactions with
        | (rows, some e) => ([.getTransactions aid], rows, some e)
        | (rows, none) =>
          match accountsLoop api rest with
          | (tr2, rows2, err2) =>
            (Event.getTransactions aid :: tr2, rows ++ rows2, err2)
      | .ok _ => ([.getTransactions aid], [], some .typeError)

/-- The outcome of one run of the script: the trace of requests made,
the rows present in `transactions.csv` on exit (`none` when the run
crashed before the file was opened), and the escaped exception, if
any. -/
structure RunResult where
  trace : List Event
  written : Option (List (List JValue))
  outcome : Option PyError

/-- The `__main__` block: constructs the `Handelsbanken` object (whose
`__init__` runs `authorize`), fetches `['accounts']` (which must be a
list to iterate), opens the CSV file, writes the header row and then
the per-account rows. -/
def runProgram (client_id : String) (api : ApiResponses) : RunResult :=
  match authorize (initFields client_id) api with
  | (tr, .error e) => ⟨tr, none, some e⟩
  | (tr, .ok _) =>
    match dget api.accountsResponse "accounts" with
    | .error e => ⟨tr ++ [.getAccounts], none, some e⟩
    | .ok (JValue.arr bank_accounts) =>
      match accountsLoop api bank_accounts with
      | (tr2, rows, err) =>
        ⟨tr ++ [.getAccounts] ++ tr2, some (header_row :: rows), err⟩
    | .ok _ => ⟨tr ++ [.getAccounts], some [header_row], some .typeError⟩

/-- The number of transactions the run fetches for one account entry:
the length of the `['transactions']` list returned for its account
id (0 when the account or response is malformed). -/
def txCount (api : ApiResponses) (account : JValue) : Nat :=
  match jget account "accountId" with
  | .ok aid =>
    match dget (api.transactionsResponse aid) "transactions" with
    | .ok (JValue.arr ts) => ts.length
    | _ => 0
  | .error _ => 0

/-- A sample transaction as returned by the sandbox, used to exercise
the model on concrete data. -/
def txSample : Dict :=
  [("status", .str "BOOK"),
   ("amount", .obj [("currency", .str "SEK"), ("content", .str "100.00")]),
   ("balance", .obj [("balanceType", .str "CLBD"),
     ("amount", .obj [("currency", .str "SEK"),
       ("content", .str "100.00")])])]

/-- A run oracle on which every request succeeds: one account with one
transaction. -/
def apiSample : ApiResponses :=
  { tokenResponse := [("access_token", .str "T1")]
    consentResponse :=
      [("consentId", .str "CID"),
       ("scaMethods", .arr [.obj [("scaMethodType", .str "REDIRECT"),
         ("_links", .obj [("authorization",
           .arr [.obj [("href", .str "U")]])])]])]
    authCodeMatch := some "CODE"
    acgResponse := [("refresh_token", .str "R"), ("access_token", .str "T2")]
    accountsResponse :=
      [("accounts", .arr [.obj [("accountId", .str "A1"),
        ("ownerName", .str "O1")]])]
    transactionsResponse := fun _ => [("transactions", .arr [.obj txSample])] }

/-- The session state after a fully successful `authorize` run against
`apiSample`. -/
def sessionSample : Session :=
  { client_id := "c"
    access_token := some (.str "T1")
    consent_id := some (.str "CID")
    authorization_endpoint := some (.str "U")
    authorization_code := some "CODE"
    auth_access_token := some (.str "T2")
    refresh_token := some (.str "R") }

theorem lookup_isSome_iff_mem (d : Dict) (k : String) :
    (d.lookup k).isSome = true ↔ k ∈ d.map Prod.fst := by
  induction d with
  | nil => simp [List.lookup]
  | cons p rest ih =>
    obtain ⟨k2, v⟩ := p
    by_cases h : k = k2
    · subst h
      simp [List.lookup]
    · have hb : (k == k2) = false := beq_false_of_ne h
      simp [List.lookup, hb, ih, h]

theorem mem_of_lookup_eq_some {d : Dict} {k : String} {v : JValue}
    (h : d.lookup k = some v) : k ∈ d.map Prod.fst := by
  rw [← lookup_isSome_iff_mem, h]
  rfl

theorem prepareLoop_ok_length {t : Dict} {ks : List String}
    {out : List JValue} (h : prepareLoop t ks = .ok out) :
    out.length = ks.length := by
  induction ks generalizing out with
  | nil =>
    simp only [prepareLoop] at h
    cases h
    rfl
  | cons key rest ih =>
    simp only [prepareLoop] at h
    cases hk : processTransactionKey t key with
    | error e => rw [hk] at h; cases h
    | ok v =>
      rw [hk] at h
      cases hr : prepareLoop t rest with
      | error e => rw [hr] at h; cases h
      | ok vs =>
        rw [hr] at h
        cases h
        simp [ih hr]

theorem prepareLoop_ok_get {t : Dict} {ks : List String}
    {out : List JValue} (h : prepareLoop t ks = .ok out)
    (i : Nat) (hi : i < ks.length) (hi2 : i < out.length) :
    processTransactionKey t (ks.get ⟨i, hi⟩) = .ok (out.get ⟨i, hi2⟩) := by
  induction ks generalizing out i with
  | nil => exact absurd hi (Nat.not_lt_zero i)
  | cons key rest ih =>
    simp only [prepareLoop] at h
    cases hk : processTransactionKey t key with
    | error e => rw [hk] at h; cases h
    | ok v =>
      rw [hk] at h
      cases hr : prepareLoop t rest with
      | error e => rw [hr] at h; cases h
      | ok vs =>
        rw [hr] at h
        cases h
        cases i with
        | zero => simpa using hk
        | succ j =>
          exact ih hr j (Nat.lt_of_succ_lt_succ hi) (Nat.lt_of_succ_lt_succ hi2)

theorem processTransactionKey_not_mem {t : Dict} {key : String}
    (h : key ∉ t.map Prod.fst) :
    processTransactionKey t key = .ok (.str "") := by
  simp [processTransactionKey, h]

theorem prepareLoop_ok_mem {t : Dict} {ks : List String} {out : List JValue}
    (h : prepareLoop t ks = .ok out) {k : String} (hk : k ∈ ks) :
    ∃ v, processTransactionKey t k = .ok v := by
  induction ks generalizing out with
  | nil => cases hk
  | cons key rest ih =>
    simp only [prepareLoop] at h
    cases hkey : processTransactionKey t key with
    | error e => rw [hkey] at h; cases h
    | ok v =>
      rw [hkey] at h
      cases hr : prepareLoop t rest with
      | error e => rw [hr] at h; cases h
      | ok vs =>
        rcases List.mem_cons.mp hk with rfl | hmem
        · exact ⟨v, hkey⟩
        · exact ih hr hmem

theorem processTransactionKey_congr {t1 t2 : Dict} {key : String}
    (h : t1.lookup key = t2.lookup key) :
    processTransactionKey t1 key = processTransactionKey t2 key := by
  have hmem : (key ∈ t1.map Prod.fst) ↔ (key ∈ t2.map Prod.fst) := by
    rw [← lookup_isSome_iff_mem, ← lookup_isSome_iff_mem, h]
  by_cases hm : key ∈ t1.map Prod.fst
  · have hm2 : key ∈ t2.map Prod.fst := hmem.mp hm
    by_cases ha : key = "amount"
    · subst ha
      simp only [processTransactionKey, if_pos hm, if_pos hm2, if_pos rfl,
        dget, h]
      simp
    · by_cases hb : key = "balance"
      · subst hb
        simp only [processTransactionKey, if_pos hm, if_pos hm2, if_neg ha,
          if_pos rfl, dget, h]
        try simp [ha]
      · simp only [processTransactionKey, if_pos hm, if_pos hm2, if_neg ha,
          if_neg hb, dget, h]
  · have hm2 : key ∉ t2.map Prod.fst := fun hx => hm (hmem.mpr hx)
    simp only [processTransactionKey, if_neg hm, if_neg hm2]

theorem prepareLoop_congr {t1 t2 : Dict} {ks : List String}
    (h : ∀ k ∈ ks, processTransactionKey t1 k = processTransactionKey t2 k) :
    prepareLoop t1 ks = prepareLoop t2 ks := by
  induction ks with
  | nil => rfl
  | cons key rest ih =>
    simp only [prepareLoop]
    rw [h key (List.mem_cons_self key rest),
      ih fun k hk => h k (List.mem_cons_of_mem key hk)]

theorem transLoop_ok {account aid : JValue} {ts : List JValue}
    {rows : List (List JValue)}
    (h : transLoop account aid ts = (rows, none)) :
    rows.length = ts.length ∧
    ∀ row ∈ rows, ∃ owner tfields rest,
      jget account "ownerName" = .ok owner ∧
      JValue.obj tfields ∈ ts ∧
      prepare_transaction tfields = .ok rest ∧
      row = aid :: owner :: rest := by
  induction ts generalizing rows with
  | nil =>
    simp only [transLoop] at h
    injection h with h1 h2
    subst h1
    simp
  | cons t rest ih =>
    cases t with
    | obj tfields =>
      simp only [transLoop] at h
      cases hp : prepare_transaction tfields with
      | error e => simp only [hp] at h; injection h with h1 h2; cases h2
      | ok trans_csv =>
        simp only [hp] at h
        cases ho : jget account "ownerName" with
        | error e => simp only [ho] at h; injection h with h1 h2; cases h2
        | ok owner =>
          simp only [ho] at h
          cases hr : transLoop account aid rest with
          | mk rows2 err =>
            simp only [hr] at h
            injection h with h1 h2
            subst h1
            subst h2
            obtain ⟨hlen, hrows⟩ := ih hr
            refine ⟨by simp [hlen], ?_⟩
            intro row hrow
            rcases List.mem_cons.mp hrow with rfl | hmem
            · exact ⟨owner, tfields, trans_csv, rfl,
                List.mem_cons_self _ _, hp, rfl⟩
            · obtain ⟨ow2, tf2, rc, hj2, hts, hprep, he⟩ := hrows row hmem
              refine ⟨ow2, tf2, rc, ?_, List.mem_cons_of_mem _ hts, hprep, he⟩
              rw [← ho]
              exact hj2
    | str s =>
      simp only [transLoop] at h
      injection h with h1 h2; cases h2
    | num n =>
      simp only [transLoop] at h
      injection h with h1 h2; cases h2
    | null =>
      simp only [transLoop] at h
      injection h with h1 h2; cases h2
    | arr items =>
      simp only [transLoop] at h
      injection h with h1 h2; cases h2

theorem accountsLoop_ok {api : ApiResponses} {accs : List JValue}
    {tr : List Event} {rows : List (List JValue)}
    (h : accountsLoop api accs = (tr, rows, none)) :
    rows.length = (accs.map (txCount api)).sum ∧
    ∀ row ∈ rows, ∃ a, a ∈ accs ∧ ∃ aid owner ts tfields rest,
      jget a "accountId" = .ok aid ∧ jget a "ownerName" = .ok owner ∧
      dget (api.transactionsResponse aid) "transactions" = .ok (.arr ts) ∧
      JValue.obj tfields ∈ ts ∧ prepare_transaction tfields = .ok rest ∧
      row = aid :: owner :: rest := by
  induction accs generalizing tr rows with
  | nil =>
    simp only [accountsLoop] at h
    injection h with h1 h2
    injection h2 with h2 h3
    subst h2
    simp
  | cons account rest ih =>
    simp only [accountsLoop] at h
    cases hj : jget account "accountId" with
    | error e =>
      simp only [hj] at h
      injection h with h1 h2
      injection h2 with h2 h3
      cases h3
    | ok aid =>
      simp only [hj] at h
      cases hd : dget (api.transactionsResponse aid) "transactions" with
      | error e =>
        simp only [hd] at h
        injection h with h1 h2
        injection h2 with h2 h3
        cases h3
      | ok v =>
        simp only [hd] at h
        cases v with
        | arr transactions =>
          cases ht : transLoop account aid transactions with
          | mk rows1 err1 =>
            simp only [ht] at h
            cases err1 with
            | some e =>
              injection h with h1 h2
              injection h2 with h2 h3
              cases h3
            | none =>
              cases hrec : accountsLoop api rest with
              | mk tr2 p =>
                cases p with
                | mk rows2 err2 =>
                  simp only [hrec] at h
                  injection h with h1 h2
                  injection h2 with h2 h3
                  subst h2
                  subst h3
                  obtain ⟨hlen1, hrows1⟩ := transLoop_ok ht
                  obtain ⟨hlen2, hrows2⟩ := ih hrec
                  constructor
                  · have hcnt : txCount api account = transactions.length := by
                      simp [txCount, hj, hd]
                    simp [hlen1, hlen2, hcnt]
                  · intro row hrow
                    rcases List.mem_append.mp hrow with hmem | hmem
                    · obtain ⟨owner, tfields, restc, ho, hts, hprep, hrow_eq⟩ :=
                        hrows1 row hmem
                      exact ⟨account, List.mem_cons_self account rest,
                        aid, owner, transactions, tfields, restc,
                        hj, ho, hd, hts, hprep, hrow_eq⟩
                    · obtain ⟨a, ha, aid2, owner, ts2, tf2, restc,
                        h1, h2, h3, h4, h5, h6⟩ := hrows2 row hmem
                      exact ⟨a, List.mem_cons_of_mem account ha,
                        aid2, owner, ts2, tf2, restc, h1, h2, h3, h4, h5, h6⟩
        | str s =>
          injection h with h1 h2
          injection h2 with h2 h3
          cases h3
        | num n =>
          injection h with h1 h2
          injection h2 with h2 h3
          cases h3
        | null =>
          injection h with h1 h2
          injection h2 with h2 h3
          cases h3
        | obj fields =>
          injection h with h1 h2
          injection h2 with h2 h3
          cases h3

theorem accountsLoop_events_fetch (api : ApiResponses) (accs : List JValue) :
    ∀ e ∈ (accountsLoop api accs).1, e.isFetch = true := by
  induction accs with
  | nil => simp [accountsLoop]
  | cons account rest ih =>
    simp only [accountsLoop]
    cases hj : jget account "accountId" with
    | error e => simp [hj]
    | ok aid =>
      cases hd : dget (api.transactionsResponse aid) "transactions" with
      | error e => simp [hj, hd, Event.isFetch]
      | ok v =>
        cases v with
        | arr transactions =>
          cases ht : transLoop account aid transactions with
          | mk rows1 err1 =>
            cases err1 with
            | some e => simp [hj, hd, ht, Event.isFetch]
            | none =>
              simp only [hj, hd, ht]
              intro e he
              rcases List.mem_cons.mp he with rfl | hmem
              · rfl
              · exact ih e hmem
        | str s => simp [hj, hd, Event.isFetch]
        | num n => simp [hj, hd, Event.isFetch]
        | null => simp [hj, hd, Event.isFetch]
        | obj fields => simp [hj, hd, Event.isFetch]

theorem consentFor_preserve {s : Session} {ms : List JValue} {s2 : Session}
    (h : consentFor s ms = .ok s2) :
    s2.access_token = s.access_token ∧ s2.consent_id = s.consent_id := by
  induction ms generalizing s with
  | nil =>
    simp only [consentFor] at h
    cases h
    exact ⟨rfl, rfl⟩
  | cons method rest ih =>
    simp only [consentFor] at h
    split at h
    · cases h
    · split at h
      · cases hl : jget method "_links" with
        | error e => simp only [hl] at h; cases h
        | ok links =>
          simp only [hl] at h
          cases ha : jget links "authorization" with
          | error e => simp only [ha] at h; cases h
          | ok auth =>
            simp only [ha] at h
            cases hf : jindex auth 0 with
            | error e => simp only [hf] at h; cases h
            | ok first =>
              simp only [hf] at h
              cases hh : jget first "href" with
              | error e => simp only [hh] at h; cases h
              | ok href =>
                simp only [hh] at h
                have hx := ih (s := { s with authorization_endpoint := some href }) h
                exact ⟨hx.1, hx.2⟩
      · exact ih h
    · exact ih h

theorem request_ccg_token_ok {s : Session} {json : Dict} {s1 : Session}
    (h : request_ccg_token s json = .ok s1) :
    s1.access_token.isSome = true := by
  simp only [request_ccg_token] at h
  cases hd : dget json "access_token" with
  | error e => simp only [hd] at h; cases h
  | ok tok => simp only [hd] at h; cases h; rfl

theorem initiate_consent_ok {s : Session} {json : Dict} {s2 : Session}
    (h : initiate_consent s json = .ok s2) :
    s2.access_token = s.access_token ∧ s2.consent_id.isSome = true := by
  simp only [initiate_consent] at h
  cases hc : dget json "consentId" with
  | error e => simp only [hc] at h; cases h
  | ok cid =>
    simp only [hc] at h
    cases hm : dget json "scaMethods" with
    | error e => simp only [hm] at h; cases h
    | ok v =>
      simp only [hm] at h
      cases v with
      | arr methods =>
        have hp := consentFor_preserve h
        exact ⟨hp.1, by rw [hp.2]; rfl⟩
      | str t => cases h
      | num n => cases h
      | null => cases h
      | obj fields => cases h

theorem initiate_authorization_ok {s : Session} {m : Option String}
    {s3 : Session} (h : initiate_authorization s m = .ok s3) :
    s3.access_token = s.access_token ∧ s3.consent_id = s.consent_id ∧
    s3.authorization_code.isSome = true := by
  cases m with
  | none => cases h
  | some code =>
    simp only [initiate_authorization] at h
    cases h
    exact ⟨rfl, rfl, rfl⟩

theorem request_acg_token_ok {s : Session} {json : Dict} {s4 : Session}
    (h : request_acg_token s json = .ok s4) :
    s4.access_token = s.access_token ∧ s4.consent_id = s.consent_id ∧
    s4.authorization_code = s.authorization_code ∧
    s4.auth_access_token.isSome = true ∧ s4.refresh_token.isSome = true := by
  simp only [request_acg_token] at h
  cases hr : dget json "refresh_token" with
  | error e => simp only [hr] at h; cases h
  | ok rt =>
    simp only [hr] at h
    cases ha : dget json "access_token" with
    | error e => simp only [ha] at h; cases h
    | ok at2 =>
      simp only [ha] at h
      cases h
      exact ⟨rfl, rfl, rfl, rfl, rfl⟩

theorem authorize_ok_fields {s : Session} {api : ApiResponses}
    {tr : List Event} {s4 : Session} (h : authorize s api = (tr, .ok s4)) :
    s4.access_token.isSome = true ∧ s4.consent_id.isSome = true ∧
    s4.authorization_code.isSome = true ∧ s4.auth_access_token.isSome = true ∧
    s4.refresh_token.isSome = true := by
  revert h
  cases h1 : request_ccg_token s api.tokenResponse with
  | error e => intro h; simp [authorize, h1] at h
  | ok s1 =>
    cases h2 : initiate_consent s1 api.consentResponse with
    | error e => intro h; simp [authorize, h1, h2] at h
    | ok s2 =>
      cases h3 : initiate_authorization s2 api.authCodeMatch with
      | error e => intro h; simp [authorize, h1, h2, h3] at h
      | ok s3 =>
        cases h4 : request_acg_token s3 api.acgResponse with
        | error e => intro h; simp [authorize, h1, h2, h3, h4] at h
        | ok s4x =>
          intro h
          simp only [authorize, h1, h2, h3, h4] at h
          injection h with hta hsb
          injection hsb with hs4
          subst hs4
          have hc1 := request_ccg_token_ok h1
          obtain ⟨hc2a, hc2b⟩ := initiate_consent_ok h2
          obtain ⟨hc3a, hc3b, hc3c⟩ := initiate_authorization_ok h3
          obtain ⟨hc4a, hc4b, hc4c, hc4d, hc4e⟩ := request_acg_token_ok h4
          refine ⟨?_, ?_, ?_, hc4d, hc4e⟩
          · rw [hc4a, hc3a, hc2a]
            exact hc1
          · rw [hc4b, hc3b]
            exact hc2b
          · rw [hc4c]
            exact hc3c

theorem authorize_cases (s : Session) (api : ApiResponses) :
    (∃ e, authorize s api = ([.ccgToken], .error e)) ∨
    (∃ e, authorize s api = ([.ccgToken, .initConsent], .error e)) ∨
    (∃ e, authorize s api = ([.ccgToken, .initConsent, .initAuth], .error e)) ∨
    (∃ e, authorize s api = (authSeq, .error e)) ∨
    (∃ s4, authorize s api = (authSeq, .ok s4)) := by
  cases h1 : request_ccg_token s api.tokenResponse with
  | error e => exact Or.inl ⟨e, by simp [authorize, h1]⟩
  | ok s1 =>
    cases h2 : initiate_consent s1 api.consentResponse with
    | error e => exact Or.inr (Or.inl ⟨e, by simp [authorize, h1, h2]⟩)
    | ok s2 =>
      cases h3 : initiate_authorization s2 api.authCodeMatch with
      | error e =>
        exact Or.inr (Or.inr (Or.inl ⟨e, by simp [authorize, h1, h2, h3]⟩))
      | ok s3 =>
        cases h4 : request_acg_token s3 api.acgResponse with
        | error e =>
          exact Or.inr (Or.inr (Or.inr (Or.inl
            ⟨e, by simp [authorize, h1, h2, h3, h4]⟩)))
        | ok s4 =>
          exact Or.inr (Or.inr (Or.inr (Or.inr
            ⟨s4, by simp [authorize, h1, h2, h3, h4]⟩)))

/-! ## Claim theorems -/

/-- C1: for every transaction dict and each of the seven extracted
keys, when the key is absent the loop body of `prepare_transaction`
yields the empty string for that column instead of raising, and in any
successful flattening the corresponding column of the result is the
empty string (in particular a transaction missing the `balance` key
yields an empty Balance column). -/
theorem claim_C1 (t : Dict) (i : Fin transaction_keys.length)
    (h : transaction_keys.get i ∉ t.map Prod.fst) :
    processTransactionKey t (transaction_keys.get i) = .ok (.str "") ∧
    ∀ out, prepare_transaction t = .ok out →
      out.get? i.val = some (.str "") := by
  have h1 := processTransactionKey_not_mem h
  refine ⟨h1, ?_⟩
  intro out hout
  have hout2 : prepareLoop t transaction_keys = .ok out := hout
  have hlen := prepareLoop_ok_length hout2
  have hi2 : i.val < out.length := by rw [hlen]; exact i.isLt
  have hg := prepareLoop_ok_get hout2 i.val i.isLt hi2
  have hcomb : Except.ok (JValue.str "") =
      (Except.ok (out.get ⟨i.val, hi2⟩) : Except PyError JValue) :=
    h1.symm.trans hg
  injection hcomb with hv
  rw [List.get?_eq_get hi2, ← hv]

theorem claim_C1_witness :
    processTransactionKey [("status", JValue.str "BOOK")] "balance" =
      .ok (.str "") ∧
    ∀ out, prepare_transaction [("status", JValue.str "BOOK")] = .ok out →
      out.get? 6 = some (.str "") :=
  claim_C1 [("status", JValue.str "BOOK")] ⟨6, by decide⟩ (by decide)

/-- C2: for every amount dict holding keys `currency` and `content`
with string values, `process_amount_key` returns the currency, a
single space, then the content; in particular
`{currency: "SEK", content: "100.00"}` formats to `"SEK 100.00"`
(see the witness). -/
theorem claim_C2 (fields : Dict) (c ct : String)
    (h1 : fields.lookup "currency" = some (.str c))
    (h2 : fields.lookup "content" = some (.str ct)) :
    process_amount_key (.obj fields) = .ok (c ++ " " ++ ct) := by
  simp [process_amount_key, jget, dget, h1, h2, pyStr]

theorem claim_C2_witness :
    process_amount_key
      (.obj [("currency", JValue.str "SEK"), ("content", JValue.str "100.00")]) =
      .ok "SEK 100.00" :=
  claim_C2 [("currency", JValue.str "SEK"), ("content", JValue.str "100.00")]
    "SEK" "100.00" rfl rfl

/-- C3: for every transaction whose `balance` value carries
`balanceType` `"CLBD"` and wraps an amount
`{currency: "SEK", content: "100.00"}`, the balance column is rendered
`"CLBD: SEK 100.00"`, and in any successful flattening that string
appears as the seventh (Balance) column. -/
theorem claim_C3 (t : Dict) (bf af : Dict)
    (hb : t.lookup "balance" = some (.obj bf))
    (hbt : bf.lookup "balanceType" = some (.str "CLBD"))
    (ham : bf.lookup "amount" = some (.obj af))
    (hc : af.lookup "currency" = some (.str "SEK"))
    (hct : af.lookup "content" = some (.str "100.00")) :
    processTransactionKey t "balance" = .ok (.str "CLBD: SEK 100.00") ∧
    ∀ out, prepare_transaction t = .ok out →
      out.get? 6 = some (.str "CLBD: SEK 100.00") := by
  have hmem : "balance" ∈ t.map Prod.fst := mem_of_lookup_eq_some hb
  have h1 : processTransactionKey t "balance" = .ok (.str "CLBD: SEK 100.00") := by
    simp [processTransactionKey, hmem, dget, jget, hb, hbt, ham, hc, hct,
      process_amount_key, pyStr]
  refine ⟨h1, ?_⟩
  intro out hout
  have hout2 : prepareLoop t transaction_keys = .ok out := hout
  have hlen := prepareLoop_ok_length hout2
  have hi2 : (6 : Nat) < out.length := by rw [hlen]; decide
  have hg := prepareLoop_ok_get hout2 6 (by decide) hi2
  have hcomb : Except.ok (JValue.str "CLBD: SEK 100.00") =
      (Except.ok (out.get ⟨6, hi2⟩) : Except PyError JValue) :=
    h1.symm.trans hg
  injection hcomb with hv
  rw [List.get?_eq_get hi2, ← hv]

theorem claim_C3_witness :
    processTransactionKey
        [("balance", JValue.obj [("balanceType", JValue.str "CLBD"),
          ("amount", JValue.obj [("currency", JValue.str "SEK"),
            ("content", JValue.str "100.00")])])] "balance" =
      .ok (.str "CLBD: SEK 100.00") ∧
    ∀ out, prepare_transaction
        [("balance", JValue.obj [("balanceType", JValue.str "CLBD"),
          ("amount", JValue.obj [("currency", JValue.str "SEK"),
            ("content", JValue.str "100.00")])])] = .ok out →
      out.get? 6 = some (.str "CLBD: SEK 100.00") :=
  claim_C3 _ [("balanceType", JValue.str "CLBD"),
      ("amount", JValue.obj [("currency", JValue.str "SEK"),
        ("content", JValue.str "100.00")])]
    [("currency", JValue.str "SEK"), ("content", JValue.str "100.00")]
    rfl rfl rfl rfl rfl

/-- C9: the empty-string fallback applies only to top-level absent
keys: a present `balance` whose dict value lacks `balanceType` or
`amount`, or whose nested amount dict lacks `currency` or `content`,
raises a `KeyError` in the balance column, and a present `amount`
whose dict value lacks `currency` or `content` raises a `KeyError` in
the amount column; in each case `prepare_transaction` does not return
a row. -/
theorem claim_C9 :
    (∀ (t bf : Dict), t.lookup "balance" = some (.obj bf) →
      bf.lookup "balanceType" = none →
      processTransactionKey t "balance" = .error (.keyError "balanceType") ∧
      ∀ out, prepare_transaction t ≠ .ok out) ∧
    (∀ (t bf : Dict) (bt : JValue), t.lookup "balance" = some (.obj bf) →
      bf.lookup "balanceType" = some bt →
      bf.lookup "amount" = none →
      processTransactionKey t "balance" = .error (.keyError "amount") ∧
      ∀ out, prepare_transaction t ≠ .ok out) ∧
    (∀ (t bf af : Dict) (bt : JValue), t.lookup "balance" = some (.obj bf) →
      bf.lookup "balanceType" = some bt →
      bf.lookup "amount" = some (.obj af) →
      af.lookup "currency" = none →
      processTransactionKey t "balance" = .error (.keyError "currency") ∧
      ∀ out, prepare_transaction t ≠ .ok out) ∧
    (∀ (t bf af : Dict) (bt cv : JValue), t.lookup "balance" = some (.obj bf) →
      bf.lookup "balanceType" = some bt →
      bf.lookup "amount" = some (.obj af) →
      af.lookup "currency" = some cv →
      af.lookup "content" = none →
      processTransactionKey t "balance" = .error (.keyError "content") ∧
      ∀ out, prepare_transaction t ≠ .ok out) ∧
    (∀ (t af : Dict), t.lookup "amount" = some (.obj af) →
      af.lookup "currency" = none →
      processTransactionKey t "amount" = .error (.keyError "currency") ∧
      ∀ out, prepare_transaction t ≠ .ok out) ∧
    (∀ (t af : Dict) (cv : JValue), t.lookup "amount" = some (.obj af) →
      af.lookup "currency" = some cv →
      af.lookup "content" = none →
      processTransactionKey t "amount" = .error (.keyError "content") ∧
      ∀ out, prepare_transaction t ≠ .ok out) := by
  have hnotok : ∀ (t : Dict) (k : String) (e : PyError),
      k ∈ transaction_keys → processTransactionKey t k = .error e →
      ∀ out, prepare_transaction t ≠ .ok out := by
    intro t k e hk herr out hout
    obtain ⟨v, hv⟩ := prepareLoop_ok_mem (t := t) hout hk
    rw [herr] at hv
    cases hv
  have hbal : ("balance" : String) ∈ transaction_keys := by decide
  have hamt : ("amount" : String) ∈ transaction_keys := by decide
  refine ⟨?_, ?_, ?_, ?_, ?_, ?_⟩
  · intro t bf hb hbt
    have hmem : "balance" ∈ t.map Prod.fst := mem_of_lookup_eq_some hb
    have herr : processTransactionKey t "balance" =
        .error (.keyError "balanceType") := by
      simp [processTransactionKey, hmem, dget, jget, hb, hbt]
    exact ⟨herr, hnotok t "balance" _ hbal herr⟩
  · intro t bf bt hb hbt ham
    have hmem : "balance" ∈ t.map Prod.fst := mem_of_lookup_eq_some hb
    have herr : processTransactionKey t "balance" =
        .error (.keyError "amount") := by
      simp [processTransactionKey, hmem, dget, jget, hb, hbt, ham]
    exact ⟨herr, hnotok t "balance" _ hbal herr⟩
  · intro t bf af bt hb hbt ham hc
    have hmem : "balance" ∈ t.map Prod.fst := mem_of_lookup_eq_some hb
    have herr : processTransactionKey t "balance" =
        .error (.keyError "currency") := by
      simp [processTransactionKey, hmem, dget, jget, hb, hbt, ham, hc,
        process_amount_key]
    exact ⟨herr, hnotok t "balance" _ hbal herr⟩
  · intro t bf af bt cv hb hbt ham hc hct
    have hmem : "balance" ∈ t.map Prod.fst := mem_of_lookup_eq_some hb
    have herr : processTransactionKey t "balance" =
        .error (.keyError "content") := by
      simp [processTransactionKey, hmem, dget, jget, hb, hbt, ham, hc, hct,
        process_amount_key]
    exact ⟨herr, hnotok t "balance" _ hbal herr⟩
  · intro t af ham hc
    have hmem : "amount" ∈ t.map Prod.fst := mem_of_lookup_eq_some ham
    have herr : processTransactionKey t "amount" =
        .error (.keyError "currency") := by
      simp [processTransactionKey, hmem, dget, jget, ham, hc,
        process_amount_key]
    exact ⟨herr, hnotok t "amount" _ hamt herr⟩
  · intro t af cv ham hc hct
    have hmem : "amount" ∈ t.map Prod.fst := mem_of_lookup_eq_some ham
    have herr : processTransactionKey t "amount" =
        .error (.keyError "content") := by
      simp [processTransactionKey, hmem, dget, jget, ham, hc, hct,
        process_amount_key]
    exact ⟨herr, hnotok t "amount" _ hamt herr⟩

theorem claim_C9_witness :
    (processTransactionKey [("balance", JValue.obj [("amount", JValue.null)])]
        "balance" = .error (.keyError "balanceType") ∧
      ∀ out, prepare_transaction
        [("balance", JValue.obj [("amount", JValue.null)])] ≠ .ok out) ∧
    (processTransactionKey
        [("balance", JValue.obj [("balanceType", JValue.str "CLBD")])]
        "balance" = .error (.keyError "amount") ∧
      ∀ out, prepare_transaction
        [("balance", JValue.obj [("balanceType", JValue.str "CLBD")])] ≠
          .ok out) ∧
    (processTransactionKey
        [("balance", JValue.obj [("balanceType", JValue.str "CLBD"),
          ("amount", JValue.obj [])])]
        "balance" = .error (.keyError "currency") ∧
      ∀ out, prepare_transaction
        [("balance", JValue.obj [("balanceType", JValue.str "CLBD"),
          ("amount", JValue.obj [])])] ≠ .ok out) ∧
    (processTransactionKey
        [("balance", JValue.obj [("balanceType", JValue.str "CLBD"),
          ("amount", JValue.obj [("currency", JValue.str "SEK")])])]
        "balance" = .error (.keyError "content") ∧
      ∀ out, prepare_transaction
        [("balance", JValue.obj [("balanceType", JValue.str "CLBD"),
          ("amount", JValue.obj [("currency", JValue.str "SEK")])])] ≠
          .ok out) ∧
    (processTransactionKey
        [("amount", JValue.obj [("content", JValue.str "100.00")])] "amount" =
        .error (.keyError "currency") ∧
      ∀ out, prepare_transaction
        [("amount", JValue.obj [("content", JValue.str "100.00")])] ≠
          .ok out) ∧
    (processTransactionKey
        [("amount", JValue.obj [("currency", JValue.str "SEK")])] "amount" =
        .error (.keyError "content") ∧
      ∀ out, prepare_transaction
        [("amount", JValue.obj [("currency", JValue.str "SEK")])] ≠
          .ok out) :=
  ⟨claim_C9.1 [("balance", JValue.obj [("amount", JValue.null)])]
      [("amount", JValue.null)] rfl rfl,
    claim_C9.2.1 [("balance", JValue.obj [("balanceType", JValue.str "CLBD")])]
      [("balanceType", JValue.str "CLBD")] (JValue.str "CLBD") rfl rfl rfl,
    claim_C9.2.2.1
      [("balance", JValue.obj [("balanceType", JValue.str "CLBD"),
        ("amount", JValue.obj [])])]
      [("balanceType", JValue.str "CLBD"), ("amount", JValue.obj [])]
      [] (JValue.str "CLBD") rfl rfl rfl rfl,
    claim_C9.2.2.2.1
      [("balance", JValue.obj [("balanceType", JValue.str "CLBD"),
        ("amount", JValue.obj [("currency", JValue.str "SEK")])])]
      [("balanceType", JValue.str "CLBD"),
        ("amount", JValue.obj [("currency", JValue.str "SEK")])]
      [("currency", JValue.str "SEK")] (JValue.str "CLBD")
      (JValue.str "SEK") rfl rfl rfl rfl rfl,
    claim_C9.2.2.2.2.1
      [("amount", JValue.obj [("content", JValue.str "100.00")])]
      [("content", JValue.str "100.00")] rfl rfl,
    claim_C9.2.2.2.2.2
      [("amount", JValue.obj [("currency", JValue.str "SEK")])]
      [("currency", JValue.str "SEK")] (JValue.str "SEK") rfl rfl rfl⟩

/-- C8: `prepare_transaction` depends only on the values of the seven
fixed keys — two dicts agreeing on those lookups (whatever their
insertion order or extra keys) flatten identically — and every
successful result has exactly 7 cells whose position i holds the value
extracted for the i-th key of the fixed key order. -/
theorem claim_C8 :
    (∀ t1 t2 : Dict, (∀ k ∈ transaction_keys, t1.lookup k = t2.lookup k) →
      prepare_transaction t1 = prepare_transaction t2) ∧
    (∀ (t : Dict) (out : List JValue), prepare_transaction t = .ok out →
      out.length = 7 ∧
      ∀ i : Fin transaction_keys.length,
        out.get? i.val =
          (processTransactionKey t (transaction_keys.get i)).toOption) := by
  constructor
  · intro t1 t2 h
    exact prepareLoop_congr fun k hk => processTransactionKey_congr (h k hk)
  · intro t out hout
    have hout2 : prepareLoop t transaction_keys = .ok out := hout
    have hlen := prepareLoop_ok_length hout2
    refine ⟨hlen, ?_⟩
    intro i
    have hi2 : i.val < out.length := by rw [hlen]; exact i.isLt
    have hg := prepareLoop_ok_get hout2 i.val i.isLt hi2
    rw [List.get?_eq_get hi2,
      show processTransactionKey t (transaction_keys.get i) =
        Except.ok (out.get ⟨i.val, hi2⟩) from hg]
    rfl

theorem claim_C8_witness :
    (prepare_transaction
        [("balance", JValue.null), ("status", JValue.str "BOOK")] =
      prepare_transaction
        [("status", JValue.str "BOOK"), ("extraKey", JValue.num 1),
         ("balance", JValue.null)]) ∧
    ∀ out, prepare_transaction [("status", JValue.str "BOOK")] = .ok out →
      out.length = 7 :=
  ⟨claim_C8.1 [("balance", JValue.null), ("status", JValue.str "BOOK")]
      [("status", JValue.str "BOOK"), ("extraKey", JValue.num 1),
       ("balance", JValue.null)]
      (by intro k hk; fin_cases hk <;> rfl),
    fun out hout => (claim_C8.2 [("status", JValue.str "BOOK")] out hout).1⟩

/-- C5: whenever the run writes the output file at all, its first row
is the header `Account ID, Owner Name, Status, Amount, Ledger Date,
Transaction Date, Credit/Debit, Remittance Information, Balance`. -/
theorem claim_C5 (cid : String) (api : ApiResponses)
    (file : List (List JValue))
    (h : (runProgram cid api).written = some file) :
    file.head? = some header_row := by
  rcases authorize_cases (initFields cid) api with
    ⟨e, ha⟩ | ⟨e, ha⟩ | ⟨e, ha⟩ | ⟨e, ha⟩ | ⟨s4, ha⟩
  · simp [runProgram, ha] at h
  · simp [runProgram, ha] at h
  · simp [runProgram, ha] at h
  · simp [runProgram, ha] at h
  · cases hacc : dget api.accountsResponse "accounts" with
    | error e => simp [runProgram, ha, hacc] at h
    | ok v =>
      cases v with
      | arr bank_accounts =>
        cases hloop : accountsLoop api bank_accounts with
        | mk tr2 p =>
          cases p with
          | mk rows err =>
            simp only [runProgram, ha, hacc, hloop] at h
            injection h with h2
            rw [← h2]
            rfl
      | str s =>
        simp only [runProgram, ha, hacc] at h
        injection h with h2
        rw [← h2]
        rfl
      | num n =>
        simp only [runProgram, ha, hacc] at h
        injection h with h2
        rw [← h2]
        rfl
      | null =>
        simp only [runProgram, ha, hacc] at h
        injection h with h2
        rw [← h2]
        rfl
      | obj fields =>
        simp only [runProgram, ha, hacc] at h
        injection h with h2
        rw [← h2]
        rfl

theorem claim_C5_witness :
    ([header_row,
      [JValue.str "A1", JValue.str "O1", JValue.str "BOOK",
       JValue.str "SEK 100.00", JValue.str "", JValue.str "", JValue.str "",
       JValue.str "", JValue.str "CLBD: SEK 100.00"]] :
      List (List JValue)).head? = some header_row :=
  claim_C5 "c" apiSample _ rfl

/-- C4: in every run that finishes without an exception, the file
holds exactly one header row plus one data row per fetched transaction
(summed over the accounts), and every data row starts with the owning
account's accountId followed by its ownerName. -/
theorem claim_C4 (cid : String) (api : ApiResponses)
    (h : (runProgram cid api).outcome = none) :
    ∃ bank_accounts rows,
      dget api.accountsResponse "accounts" = .ok (.arr bank_accounts) ∧
      (runProgram cid api).written = some (header_row :: rows) ∧
      rows.length = (bank_accounts.map (txCount api)).sum ∧
      ∀ row ∈ rows, ∃ a, a ∈ bank_accounts ∧ ∃ aid owner ts tfields rest,
        jget a "accountId" = .ok aid ∧ jget a "ownerName" = .ok owner ∧
        dget (api.transactionsResponse aid) "transactions" =
          .ok (.arr ts) ∧
        JValue.obj tfields ∈ ts ∧ prepare_transaction tfields = .ok rest ∧
        row = aid :: owner :: rest := by
  rcases authorize_cases (initFields cid) api with
    ⟨e, ha⟩ | ⟨e, ha⟩ | ⟨e, ha⟩ | ⟨e, ha⟩ | ⟨s4, ha⟩
  · simp [runProgram, ha] at h
  · simp [runProgram, ha] at h
  · simp [runProgram, ha] at h
  · simp [runProgram, ha] at h
  · cases hacc : dget api.accountsResponse "accounts" with
    | error e => simp [runProgram, ha, hacc] at h
    | ok v =>
      cases v with
      | arr bank_accounts =>
        cases hloop : accountsLoop api bank_accounts with
        | mk tr2 p =>
          cases p with
          | mk rows err =>
            simp only [runProgram, ha, hacc, hloop] at h
            rw [h] at hloop
            obtain ⟨hlen, hrows⟩ := accountsLoop_ok hloop
            refine ⟨bank_accounts, rows, rfl, ?_, hlen, hrows⟩
            simp only [runProgram, ha, hacc]
            rw [hloop]
      | str s => simp [runProgram, ha, hacc] at h
      | num n => simp [runProgram, ha, hacc] at h
      | null => simp [runProgram, ha, hacc] at h
      | obj fields => simp [runProgram, ha, hacc] at h

theorem claim_C4_witness :
    (runProgram "c" apiSample).outcome = none ∧
    ∃ bank_accounts rows,
      dget apiSample.accountsResponse "accounts" = .ok (.arr bank_accounts) ∧
      (runProgram "c" apiSample).written = some (header_row :: rows) ∧
      rows.length = (bank_accounts.map (txCount apiSample)).sum ∧
      ∀ row ∈ rows, ∃ a, a ∈ bank_accounts ∧ ∃ aid owner ts tfields rest,
        jget a "accountId" = .ok aid ∧ jget a "ownerName" = .ok owner ∧
        dget (apiSample.transactionsResponse aid) "transactions" =
          .ok (.arr ts) ∧
        JValue.obj tfields ∈ ts ∧ prepare_transaction tfields = .ok rest ∧
        row = aid :: owner :: rest :=
  ⟨rfl, claim_C4 "c" apiSample rfl⟩

/-- C6: the four OAuth requests are issued in the fixed order
ccg-token, consent, authorization, acg-token, and both data fetches
happen only after all four completed: every trace is either a prefix
of that sequence containing no fetch (an aborted authorization) or the
full sequence followed by fetch events only; moreover a successful
`authorize` leaves every step's output (tokens, consent id,
authorization code) recorded in the session, each being the input of
the following step. -/
theorem claim_C6 (cid : String) (api : ApiResponses) :
    (((runProgram cid api).trace <+: authSeq ∧
        ∀ e ∈ (runProgram cid api).trace, e.isFetch = false) ∨
      (∃ rest, (runProgram cid api).trace = authSeq ++ rest ∧
        ∀ e ∈ rest, e.isFetch = true)) ∧
    (∀ tr s4, authorize (initFields cid) api = (tr, .ok s4) →
      s4.access_token.isSome = true ∧ s4.consent_id.isSome = true ∧
      s4.authorization_code.isSome = true ∧
      s4.auth_access_token.isSome = true) := by
  constructor
  · rcases authorize_cases (initFields cid) api with
      ⟨e, ha⟩ | ⟨e, ha⟩ | ⟨e, ha⟩ | ⟨e, ha⟩ | ⟨s4, ha⟩
    · refine Or.inl ⟨?_, ?_⟩
      · simp only [runProgram, ha]
        exact ⟨[.initConsent, .initAuth, .acgToken], rfl⟩
      · simp only [runProgram, ha]
        intro ev hev
        fin_cases hev
        rfl
    · refine Or.inl ⟨?_, ?_⟩
      · simp only [runProgram, ha]
        exact ⟨[.initAuth, .acgToken], rfl⟩
      · simp only [runProgram, ha]
        intro ev hev
        fin_cases hev <;> rfl
    · refine Or.inl ⟨?_, ?_⟩
      · simp only [runProgram, ha]
        exact ⟨[.acgToken], rfl⟩
      · simp only [runProgram, ha]
        intro ev hev
        fin_cases hev <;> rfl
    · refine Or.inl ⟨?_, ?_⟩
      · simp only [runProgram, ha]
        exact ⟨[], List.append_nil authSeq⟩
      · simp only [runProgram, ha]
        intro ev hev
        fin_cases hev <;> rfl
    · refine Or.inr ?_
      cases hacc : dget api.accountsResponse "accounts" with
      | error e =>
        refine ⟨[.getAccounts], ?_, ?_⟩
        · simp [runProgram, ha, hacc]
        · intro ev hev
          fin_cases hev
          rfl
      | ok v =>
        cases v with
        | arr bank_accounts =>
          cases hloop : accountsLoop api bank_accounts with
          | mk tr2 p =>
            cases p with
            | mk rows err =>
              refine ⟨.getAccounts :: tr2, ?_, ?_⟩
              · simp [runProgram, ha, hacc, hloop]
              · intro ev hev
                rcases List.mem_cons.mp hev with rfl | hmem
                · rfl
                · have hf := accountsLoop_events_fetch api bank_accounts ev
                  rw [hloop] at hf
                  exact hf hmem
        | str s =>
          refine ⟨[.getAccounts], ?_, ?_⟩
          · simp [runProgram, ha, hacc]
          · intro ev hev
            fin_cases hev
            rfl
        | num n =>
          refine ⟨[.getAccounts], ?_, ?_⟩
          · simp [runProgram, ha, hacc]
          · intro ev hev
            fin_cases hev
            rfl
        | null =>
          refine ⟨[.getAccounts], ?_, ?_⟩
          · simp [runProgram, ha, hacc]
          · intro ev hev
            fin_cases hev
            rfl
        | obj fields =>
          refine ⟨[.getAccounts], ?_, ?_⟩
          · simp [runProgram, ha, hacc]
          · intro ev hev
            fin_cases hev
            rfl
  · intro tr s4 h
    have hf := authorize_ok_fields h
    exact ⟨hf.1, hf.2.1, hf.2.2.1, hf.2.2.2.1⟩

theorem claim_C6_witness :
    sessionSample.access_token.isSome = true ∧
    sessionSample.consent_id.isSome = true ∧
    sessionSample.authorization_code.isSome = true ∧
    sessionSample.auth_access_token.isSome = true :=
  (claim_C6 "c" apiSample).2 authSeq sessionSample rfl

